import Mathlib

/-!
A shallow embedding of the quiz application in `mobile_app.py`, covering the
CSV normalizer (`validate_csv`), the persistence helpers
(`create_quiz_from_csv`, `get_quiz_by_id`, `get_quiz_leaderboard`) over an
explicit database state, and the quiz-progression session state machine
(`select_option`, `submit_answer`, `next_question`).

Python strings are modelled as Lean `String`; the string helpers used by the
source (`str.split(',')`, `str.strip()`, `str.lower()`, `str.isdigit()`,
`int(...)`, `in`) are embedded below over character lists with ASCII-faithful
semantics.
-/

namespace QuizApp

/-! ## Python string primitives used by `validate_csv` -/

/-- Whitespace characters stripped by Python's `str.strip()` (ASCII range). -/
def isPySpace (c : Char) : Bool :=
  c = ' ' || c = '\t' || c = '\n' || c = '\x0d' || c = '\x0b' || c = '\x0c'

/-- Python `str.strip()`: remove leading and trailing whitespace. -/
def pyStrip (s : String) : String :=
  String.mk (((s.data.dropWhile isPySpace).reverse.dropWhile isPySpace).reverse)

/-- Splitting a character list on `','`, as Python's `str.split(',')` does:
every comma is a separator, empty pieces are kept, and splitting the empty
string yields one empty piece. -/
def splitCommaChars : List Char → List (List Char)
  | [] => [[]]
  | c :: cs =>
    if c = ',' then [] :: splitCommaChars cs
    else
      match splitCommaChars cs with
      | [] => [[c]]
      | p :: ps => (c :: p) :: ps

/-- Python `options_str.split(',')`. -/
def pySplitComma (s : String) : List String :=
  (splitCommaChars s.data).map String.mk

/-- Python `',' in s`. -/
def pyContainsComma (s : String) : Bool :=
  s.data.contains ','

/-- Python `str.isdigit()` on ASCII data: non-empty and all characters are
decimal digits. -/
def pyIsDigit (s : String) : Bool :=
  !s.data.isEmpty && s.data.all (fun c => '0' ≤ c && c ≤ '9')

/-- Python `int(s)` for a digit string: the decimal value. -/
def pyInt (s : String) : Nat :=
  s.data.foldl (fun n c => 10 * n + (c.toNat - '0'.toNat)) 0

/-- Python `str.lower()` restricted to ASCII letters. -/
def pyLowerChar (c : Char) : Char :=
  if 'A' ≤ c && c ≤ 'Z' then Char.ofNat (c.toNat + 32) else c

/-- Python `s.lower()`. -/
def pyLower (s : String) : String :=
  String.mk (s.data.map pyLowerChar)

/-! ## The CSV normalizer (`validate_csv`, src/mobile_app.py lines 280-405)

A parsed CSV row is modelled after pandas has read the file and the source
has applied `str(...)` to each cell: every relevant cell is a string, and a
missing (`NaN`) shape-B option cell is `none` (the `pd.notna` filter). -/

/-- A normalized question record, as appended to `processed_data`. -/
structure Question where
  question : String
  options : List String
  answer : String
  deriving Repr, DecidableEq

/-- A shape-A row: columns `question`, `options`, `answer`
(each already passed through `str(...)`). -/
structure RowA where
  question : String
  options : String
  answer : String
  deriving Repr, DecidableEq

/-- A shape-B row: column `question`, the `option*` cells in column order
(`none` = missing/NaN, filtered out by `pd.notna`), and column `answer`. -/
structure RowB where
  question : String
  optionCells : List (Option String)
  answer : String
  deriving Repr, DecidableEq

/-- The shape-A row-processing body of `validate_csv`
(lines 311-333): `i` is the 0-based row index used in error messages. -/
def processRowA (i : Nat) (row : RowA) : Except String Question :=
  if !pyContainsComma row.options then
    .error s!"Row {i+1}: \x27options\x27 must be a comma-separated string of choices"
  else
    let options := (pySplitComma row.options).map pyStrip
    if options.length < 2 then
      .error s!"Row {i+1}: At least 2 options are required"
    else if !options.contains (pyStrip row.answer) then
      .error s!"Row {i+1}: Answer \x27{row.answer}\x27 is not in the options list"
    else
      .ok { question := row.question, options := options, answer := pyStrip row.answer }

/-- The digit-answer handling of `validate_csv` shape B (lines 372-377):
when `answer.isdigit()`, compute `answer_idx = int(answer) - 1` over the
integers and substitute `options[answer_idx]` when `0 <= answer_idx <
len(options)`, else fail; a non-digit answer passes through unchanged. -/
def resolveAnswerIndex (i : Nat) (answer : String) (options : List String) :
    Except String String :=
  if pyIsDigit answer then
    let answer_idx : Int := (pyInt answer : Int) - 1
    if 0 ≤ answer_idx ∧ answer_idx < options.length then
      .ok (options.getD answer_idx.toNat "")
    else
      .error s!"Row {i+1}: Answer index {answer} is out of range"
  else
    .ok answer

/-- The shape-B row-processing body of `validate_csv`
(lines 353-396): collect non-null option cells, require at least two,
substitute a digit-string answer by 1-based index, then check the resulting
answer for membership in the options, falling back to the first
case-insensitive match (adopting that option's casing). -/
def processRowB (i : Nat) (row : RowB) : Except String Question :=
  let options := row.optionCells.filterMap id
  if options.length < 2 then
    .error s!"Row {i+1}: At least 2 options are required"
  else
    match resolveAnswerIndex i row.answer options with
    | .error e => .error e
    | .ok answer =>
      if options.contains answer then
        .ok { question := row.question, options := options, answer := answer }
      else
        match options.find? (fun opt => pyLower opt == pyLower answer) with
        | some opt =>
          .ok { question := row.question, options := options, answer := opt }
        | none =>
          .error s!"Row {i+1}: Answer \x27{answer}\x27 is not in the options list"

/-- The shape-A loop of `validate_csv`: process rows in order from index `i`,
failing fast on the first bad row. -/
def processRowsA (i : Nat) : List RowA → Except String (List Question)
  | [] => .ok []
  | row :: rows =>
    match processRowA i row with
    | .error e => .error e
    | .ok q =>
      match processRowsA (i+1) rows with
      | .error e => .error e
      | .ok qs => .ok (q :: qs)

/-- The shape-B loop of `validate_csv`. -/
def processRowsB (i : Nat) : List RowB → Except String (List Question)
  | [] => .ok []
  | row :: rows =>
    match processRowB i row with
    | .error e => .error e
    | .ok q =>
      match processRowsB (i+1) rows with
      | .error e => .error e
      | .ok qs => .ok (q :: qs)

/-- `validate_csv` on a CSV detected as shape A (the `has_options_column`
branch): the processed data, or the first row error. -/
def validateShapeA (rows : List RowA) : Except String (List Question) :=
  processRowsA 0 rows

/-- `validate_csv` on a CSV detected as shape B (the `has_option_columns`
branch). -/
def validateShapeB (rows : List RowB) : Except String (List Question) :=
  processRowsB 0 rows

/-! ## Session state machine (src/mobile_app.py lines 422-473)

`st.session_state` is modelled for a loaded quiz: `quiz_data` is the list of
questions (the `None` state before a quiz is loaded is outside the claims). -/

/-- The transient per-run session state. -/
structure SessionState where
  quiz_data : List Question
  current_question : Nat
  score : Nat
  selected_option : Option String
  submitted : Bool
  quiz_completed : Bool
  deriving Repr, DecidableEq

/-- `select_option(option)` (lines 452-455): record the choice and clear the
submitted flag. -/
def select_option (st : SessionState) (option : String) : SessionState :=
  { st with selected_option := some option, submitted := false }

/-- `submit_answer()` (lines 457-464): no-op when nothing is selected;
otherwise set `submitted`, look up the current question
(`quiz_data[current_question]`; `none` models the Python `IndexError` when
the index is out of range) and bump the score on an exact answer match. -/
def submit_answer (st : SessionState) : Option SessionState :=
  match st.selected_option with
  | none => some st
  | some sel =>
    match st.quiz_data.get? st.current_question with
    | none => none
    | some q =>
      some { st with submitted := true,
                     score := if sel = q.answer then st.score + 1 else st.score }

/-- `next_question()` (lines 466-473). The Python guard is
`current_question < len(quiz_data) - 1` over mathematical integers; for
`len = 0` both that and the truncated `Nat` subtraction make the guard
false, so the `Nat` form below agrees with the source on every state. -/
def next_question (st : SessionState) : SessionState :=
  if st.current_question < st.quiz_data.length - 1 then
    { st with current_question := st.current_question + 1,
              selected_option := none, submitted := false }
  else
    { st with quiz_completed := true }

/-! ## Persistence (src/mobile_app.py lines 146-277)

The SQLite database is modelled as explicit lists of rows. `AUTOINCREMENT`
quiz ids are modelled by `nextQuizId`. The `options` TEXT column holds the
`json.dumps` serialization of a string list; since `json.dumps`/`json.loads`
are Python standard-library code (not part of this repository), the cell is
modelled abstractly as either the well-formed serialization of a list or a
malformed blob on which `json.loads` raises. -/

/-- A cell of the `questions.options` TEXT column. -/
inductive StoredOptions where
  | wellFormed (l : List String)
  | malformed (blob : String)
  deriving Repr, DecidableEq

/-- Modelled from the Python standard library: `json.dumps(options)` produces
the well-formed serialization of the list. -/
def jsonDumps (l : List String) : StoredOptions := .wellFormed l

/-- Modelled from the Python standard library: `json.loads` recovers the list
from its serialization and raises (`none`) on a malformed cell. -/
def jsonLoads : StoredOptions → Option (List String)
  | .wellFormed l => some l
  | .malformed _ => none

/-- A row of the `quizzes` table. -/
structure QuizRow where
  id : Nat
  title : String
  description : String
  deriving Repr, DecidableEq

/-- A row of the `questions` table. -/
structure QuestionRow where
  quiz_id : Nat
  question_text : String
  options : StoredOptions
  correct_answer : String
  position : Nat
  deriving Repr, DecidableEq

/-- A row of the `quiz_attempts` table. The REAL `score` and `percentage`
columns are modelled as rationals; `user_name` is nullable. -/
structure AttemptRow where
  quiz_id : Nat
  user_name : Option String
  score : ℚ
  max_score : Nat
  percentage : ℚ
  deriving Repr, DecidableEq

/-- The database state. -/
structure DB where
  quizzes : List QuizRow
  questions : List QuestionRow
  attempts : List AttemptRow
  nextQuizId : Nat
  deriving Repr, DecidableEq

/-- The question-insert loop of `create_quiz_from_csv` (lines 160-165),
threading the uncommitted connection state. `failAt` is the environment's
choice of which insert (if any) raises: insert `0` is the quiz row, insert
`j` is the `j`-th question row. `none` models the raised exception, which
triggers `conn.rollback()` in the caller. -/
def insertQuestionRows (pending : DB) (qid : Nat) (qs : List Question)
    (pos : Nat) (failAt : Option Nat) (idx : Nat) : Option DB :=
  match qs with
  | [] => some pending
  | q :: rest =>
    if failAt = some idx then none
    else
      insertQuestionRows
        { pending with questions :=
            pending.questions ++ [⟨qid, q.question, jsonDumps q.options, q.answer, pos⟩] }
        qid rest (pos + 1) failAt (idx + 1)

/-- `create_quiz_from_csv(title, description, quiz_data)` (lines 146-174):
insert one quiz row and one question row per question (position `i+1`),
committing only after every insert succeeded; any exception rolls the
connection back, leaving the stored state unchanged, and returns `None`. -/
def create_quiz_from_csv (db : DB) (title description : String)
    (quiz_data : List Question) (failAt : Option Nat) : DB × Option Nat :=
  if failAt = some 0 then (db, none)
  else
    let qid := db.nextQuizId
    let pending : DB :=
      { db with quizzes := db.quizzes ++ [⟨qid, title, description⟩],
                nextQuizId := qid + 1 }
    match insertQuestionRows pending qid quiz_data 1 failAt 1 with
    | none => (db, none)
    | some committed => (committed, some qid)

/-- The `ORDER BY position` relation of the questions query. -/
def byPosition (a b : QuestionRow) : Prop := a.position ≤ b.position

instance : DecidableRel byPosition := fun a b => Nat.decLe a.position b.position

instance : IsTotal QuestionRow byPosition := ⟨fun a b => Nat.le_total a.position b.position⟩

instance : IsTrans QuestionRow byPosition := ⟨fun _ _ _ h1 h2 => Nat.le_trans h1 h2⟩

/-- Quiz metadata as returned by `get_quiz_by_id`. -/
structure QuizMeta where
  id : Nat
  title : String
  description : String
  deriving Repr, DecidableEq

/-- `json.loads(q[1])` with the `except` fallback of lines 215-218:
a malformed cell degrades to the empty list. -/
def loadOptionsOrEmpty (o : StoredOptions) : List String :=
  match jsonLoads o with
  | some l => l
  | none => []

/-- `get_quiz_by_id(quiz_id)` (lines 196-233): look the quiz up, select its
questions ordered by `position`, and decode each stored options cell. -/
def get_quiz_by_id (db : DB) (qid : Nat) : Option QuizMeta × List Question :=
  match db.quizzes.find? (fun qz => qz.id == qid) with
  | none => (none, [])
  | some qz =>
    let rows := (db.questions.filter (fun r => r.quiz_id == qid)).insertionSort byPosition
    (some ⟨qz.id, qz.title, qz.description⟩,
     rows.map fun r => ⟨r.question_text, loadOptionsOrEmpty r.options, r.correct_answer⟩)

/-- The `ORDER BY score DESC` relation of the leaderboard query. -/
def byScoreDesc (a b : AttemptRow) : Prop := b.score ≤ a.score

instance : DecidableRel byScoreDesc := fun a b => inferInstanceAs (Decidable (b.score ≤ a.score))

instance : IsTotal AttemptRow byScoreDesc := ⟨fun a b => le_total b.score a.score⟩

instance : IsTrans AttemptRow byScoreDesc := ⟨fun _ _ _ h1 h2 => le_trans h2 h1⟩

/-- A leaderboard entry as returned by `get_quiz_leaderboard`. -/
structure LeaderboardEntry where
  user_name : String
  score : ℚ
  max_score : Nat
  percentage : ℚ
  deriving Repr, DecidableEq

/-- `attempt[0] if attempt[0] else "Anonymous"` (line 270): both SQL `NULL`
and the empty string are falsy in Python. -/
def displayName : Option String → String
  | none => "Anonymous"
  | some s => if s = "" then "Anonymous" else s

/-- `get_quiz_leaderboard(quiz_id, limit)` (lines 256-277): the attempts of
the quiz, ordered by raw score descending, truncated to `limit` rows. -/
def get_quiz_leaderboard (db : DB) (qid : Nat) (limit : Nat) : List LeaderboardEntry :=
  ((((db.attempts.filter (fun a => a.quiz_id == qid)).insertionSort byScoreDesc).take limit).map
    fun a => ⟨displayName a.user_name, a.score, a.max_score, a.percentage⟩)

/-- The question rows that the insert loop of `create_quiz_from_csv` appends
for `quiz_data`, starting at position `pos`. -/
def questionRowsFrom (qid : Nat) : List Question → Nat → List QuestionRow
  | [], _ => []
  | q :: rest, pos =>
    ⟨qid, q.question, jsonDumps q.options, q.answer, pos⟩ :: questionRowsFrom qid rest (pos + 1)

/-! ## Theorems -/

/-- C10: `select_option` sets the selected option, resets the submitted flag
to `false`, and leaves the score, the current question index, and the loaded
quiz data unchanged. -/
theorem select_option_sets_choice_and_frames (st : SessionState) (option : String) :
    (select_option st option).selected_option = some option ∧
    (select_option st option).submitted = false ∧
    (select_option st option).score = st.score ∧
    (select_option st option).current_question = st.current_question ∧
    (select_option st option).quiz_data = st.quiz_data :=
  ⟨rfl, rfl, rfl, rfl, rfl⟩

/-- C6: when more questions remain, `next_question` advances the index by one
and resets the selection and submitted flag; when the current question is the
last one, it sets the completed flag; in every case the score is unchanged. -/
theorem next_question_advances_or_completes (st : SessionState) :
    (st.current_question < st.quiz_data.length - 1 →
      next_question st =
        { st with current_question := st.current_question + 1,
                  selected_option := none, submitted := false }) ∧
    (st.current_question + 1 = st.quiz_data.length →
      next_question st = { st with quiz_completed := true }) ∧
    (next_question st).score = st.score := by
  refine ⟨fun h => ?_, fun h => ?_, ?_⟩
  · simp [next_question, h]
  · have h' : ¬ st.current_question < st.quiz_data.length - 1 := by omega
    simp [next_question, h']
  · unfold next_question
    split <;> rfl

/-- C6 witness: a two-question quiz at index 0 advances to index 1 with the
selection cleared, and at index 1 transitions to completed, both keeping the
score. -/
theorem next_question_advances_or_completes_witness :
    next_question ⟨[⟨"Q1", ["A", "B"], "A"⟩, ⟨"Q2", ["C", "D"], "D"⟩], 0, 5, some "A", true, false⟩ =
      ⟨[⟨"Q1", ["A", "B"], "A"⟩, ⟨"Q2", ["C", "D"], "D"⟩], 1, 5, none, false, false⟩ ∧
    next_question ⟨[⟨"Q1", ["A", "B"], "A"⟩, ⟨"Q2", ["C", "D"], "D"⟩], 1, 5, some "D", true, false⟩ =
      ⟨[⟨"Q1", ["A", "B"], "A"⟩, ⟨"Q2", ["C", "D"], "D"⟩], 1, 5, some "D", true, true⟩ :=
  ⟨(next_question_advances_or_completes _).1 (by decide),
   (next_question_advances_or_completes _).2.1 (by decide)⟩

/-- C3: `submit_answer` is not idempotent after the first call. With the
correct option still selected and `submitted = true` after the first call, a
second call increments the score again: the source guards only on
`selected_option is not None` and never checks the `submitted` flag, while
the spec states the call is valid only when not yet submitted (the UI
disables the button after submission, confirming the intent). -/
theorem submit_answer_second_call_changes_score :
    submit_answer ⟨[⟨"Q1", ["A", "B"], "A"⟩], 0, 0, some "A", false, false⟩ =
      some ⟨[⟨"Q1", ["A", "B"], "A"⟩], 0, 1, some "A", true, false⟩ ∧
    submit_answer ⟨[⟨"Q1", ["A", "B"], "A"⟩], 0, 1, some "A", true, false⟩ =
      some ⟨[⟨"Q1", ["A", "B"], "A"⟩], 0, 2, some "A", true, false⟩ ∧
    (SessionState.mk [⟨"Q1", ["A", "B"], "A"⟩] 0 2 (some "A") true false).score ≠
      (SessionState.mk [⟨"Q1", ["A", "B"], "A"⟩] 0 1 (some "A") true false).score := by
  refine ⟨rfl, rfl, by decide⟩

/-- Helper for C1: a shape-A row accepted by `processRowA` produces a record
whose answer is a member of its options. -/
theorem processRowA_answer_mem (i : Nat) (row : RowA) (q : Question)
    (h : processRowA i row = .ok q) : q.answer ∈ q.options := by
  unfold processRowA at h
  by_cases hc : !pyContainsComma row.options
  · rw [if_pos hc] at h
    exact absurd h (by simp)
  · rw [if_neg hc] at h
    by_cases hl : ((pySplitComma row.options).map pyStrip).length < 2
    · rw [if_pos hl] at h
      exact absurd h (by simp)
    · rw [if_neg hl] at h
      by_cases hm : !((pySplitComma row.options).map pyStrip).contains (pyStrip row.answer)
      · rw [if_pos hm] at h
        exact absurd h (by simp)
      · rw [if_neg hm] at h
        injection h with h
        subst h
        simpa using hm

/-- Helper for C1: a shape-B row accepted by `processRowB` produces a record
whose answer is a member of its options (the membership check after the
digit substitution guards every accepting path). -/
theorem processRowB_answer_mem (i : Nat) (row : RowB) (q : Question)
    (h : processRowB i row = .ok q) : q.answer ∈ q.options := by
  unfold processRowB at h
  by_cases hl : (row.optionCells.filterMap id).length < 2
  · rw [if_pos hl] at h
    exact absurd h (by simp)
  · rw [if_neg hl] at h
    cases hr : resolveAnswerIndex i row.answer (row.optionCells.filterMap id) with
    | error e => rw [hr] at h; exact absurd h (by simp)
    | ok answer =>
      simp only [hr] at h
      by_cases hm : (row.optionCells.filterMap id).contains answer
      · rw [if_pos hm] at h
        injection h with h
        subst h
        simpa using hm
      · rw [if_neg hm] at h
        cases hf : (row.optionCells.filterMap id).find? (fun opt => pyLower opt == pyLower answer) with
        | none => rw [hf] at h; exact absurd h (by simp)
        | some opt =>
          rw [hf] at h
          injection h with h
          subst h
          simpa using List.mem_of_find?_eq_some hf

/-- Helper for C1: the invariant extends through the shape-A row loop. -/
theorem processRowsA_answer_mem (rows : List RowA) :
    ∀ (i : Nat) (qs : List Question), processRowsA i rows = .ok qs →
      ∀ q ∈ qs, q.answer ∈ q.options := by
  induction rows with
  | nil =>
    intro i qs h q hq
    unfold processRowsA at h
    injection h with h
    subst h
    exact absurd hq (by simp)
  | cons row rest ih =>
    intro i qs h q hq
    unfold processRowsA at h
    cases h1 : processRowA i row with
    | error e => rw [h1] at h; exact absurd h (by simp)
    | ok q1 =>
      rw [h1] at h
      cases h2 : processRowsA (i + 1) rest with
      | error e => rw [h2] at h; exact absurd h (by simp)
      | ok qs1 =>
        rw [h2] at h
        injection h with h
        subst h
        rcases List.mem_cons.1 hq with rfl | hq1
        · exact processRowA_answer_mem i row q h1
        · exact ih (i + 1) qs1 h2 q hq1

/-- Helper for C1: the invariant extends through the shape-B row loop. -/
theorem processRowsB_answer_mem (rows : List RowB) :
    ∀ (i : Nat) (qs : List Question), processRowsB i rows = .ok qs →
      ∀ q ∈ qs, q.answer ∈ q.options := by
  induction rows with
  | nil =>
    intro i qs h q hq
    unfold processRowsB at h
    injection h with h
    subst h
    exact absurd hq (by simp)
  | cons row rest ih =>
    intro i qs h q hq
    unfold processRowsB at h
    cases h1 : processRowB i row with
    | error e => rw [h1] at h; exact absurd h (by simp)
    | ok q1 =>
      rw [h1] at h
      cases h2 : processRowsB (i + 1) rest with
      | error e => rw [h2] at h; exact absurd h (by simp)
      | ok qs1 =>
        rw [h2] at h
        injection h with h
        subst h
        rcases List.mem_cons.1 hq with rfl | hq1
        · exact processRowB_answer_mem i row q h1
        · exact ih (i + 1) qs1 h2 q hq1

/-- C1: for every CSV that `validate_csv` accepts — shape A or shape B —
every `Question` record in the returned list has an answer string that is a
member of that record's options list. -/
theorem validate_csv_answer_in_options :
    (∀ (rows : List RowA) (qs : List Question),
       validateShapeA rows = .ok qs → ∀ q ∈ qs, q.answer ∈ q.options) ∧
    (∀ (rows : List RowB) (qs : List Question),
       validateShapeB rows = .ok qs → ∀ q ∈ qs, q.answer ∈ q.options) :=
  ⟨fun rows qs h => processRowsA_answer_mem rows 0 qs h,
   fun rows qs h => processRowsB_answer_mem rows 0 qs h⟩

/-- C1 witness: the record produced from the accepted shape-A row
`Q1,"A, B",B` has its answer among its options. -/
theorem validate_csv_answer_in_options_witness :
    (Question.mk "Q1" ["A", "B"] "B").answer ∈ (Question.mk "Q1" ["A", "B"] "B").options :=
  validate_csv_answer_in_options.1 [⟨"Q1", "A, B", "B"⟩] [⟨"Q1", ["A", "B"], "B"⟩]
    rfl (Question.mk "Q1" ["A", "B"] "B") (by decide)

/-- Helper for C4: the shape-A loop over an extended row list first consumes
a prefix it accepts, then continues at the shifted row index. -/
theorem processRowsA_append (pre : List RowA) :
    ∀ (i : Nat) (rest : List RowA) (qs : List Question),
      processRowsA i pre = .ok qs →
      processRowsA i (pre ++ rest) =
        match processRowsA (i + pre.length) rest with
        | .error e => .error e
        | .ok qs2 => .ok (qs ++ qs2) := by
  induction pre with
  | nil =>
    intro i rest qs h
    unfold processRowsA at h
    injection h with h
    subst h
    simp only [List.nil_append, List.length_nil, Nat.add_zero]
    cases processRowsA i rest <;> simp
  | cons row rows ih =>
    intro i rest qs h
    unfold processRowsA at h
    cases h1 : processRowA i row with
    | error e => rw [h1] at h; exact absurd h (by simp)
    | ok q1 =>
      rw [h1] at h
      cases h2 : processRowsA (i + 1) rows with
      | error e => rw [h2] at h; exact absurd h (by simp)
      | ok qs1 =>
        rw [h2] at h
        injection h with h
        subst h
        have hstep : processRowsA i ((row :: rows) ++ rest) =
            match processRowA i row with
            | .error e => .error e
            | .ok q =>
              match processRowsA (i + 1) (rows ++ rest) with
              | .error e => .error e
              | .ok qs => .ok (q :: qs) := rfl
        rw [hstep, h1, ih (i + 1) rest qs1 h2]
        have hlen : i + 1 + rows.length = i + (row :: rows).length := by
          simp only [List.length_cons]
          omega
        rw [hlen]
        cases processRowsA (i + (row :: rows).length) rest <;> simp
/-- Helper for C4: `splitCommaChars` never returns an empty list of pieces. -/
theorem splitCommaChars_ne_nil (cs : List Char) : splitCommaChars cs ≠ [] := by
  induction cs with
  | nil => simp [splitCommaChars]
  | cons c rest ih =>
    unfold splitCommaChars
    by_cases hc : c = ','
    · rw [if_pos hc]
      simp
    · rw [if_neg hc]
      cases hr : splitCommaChars rest with
      | nil => simp
      | cons p ps => simp
/-- Helper for C4: a character list that contains a comma splits into at
least two pieces. -/
theorem splitCommaChars_two_pieces (cs : List Char) (h : cs.contains ',' = true) :
    2 ≤ (splitCommaChars cs).length := by
  induction cs with
  | nil => simp at h
  | cons c rest ih =>
    unfold splitCommaChars
    by_cases hc : c = ','
    · rw [if_pos hc]
      have h1 : 0 < (splitCommaChars rest).length :=
        List.length_pos.2 (splitCommaChars_ne_nil rest)
      simp only [List.length_cons]
      omega
    · rw [if_neg hc]
      have hcs : rest.contains ',' = true := by
        simp only [List.contains_cons] at h
        rcases Bool.or_eq_true_iff.1 h with h1 | h1
        · have h1' : ',' = c := by simpa using h1
          exact absurd h1'.symm hc
        · exact h1
      have h2 := ih hcs
      cases hsp : splitCommaChars rest with
      | nil => exact absurd hsp (splitCommaChars_ne_nil rest)
      | cons p ps =>
        rw [hsp] at h2
        simp only [List.length_cons] at h2 ⊢
        omega

/-- Helper for C4: splitting a string that contains a comma always yields at
least two pieces, so the shape-A "At least 2 options are required" check can
never fire. -/
theorem pySplitComma_two_pieces (s : String) (h : pyContainsComma s = true) :
    2 ≤ (pySplitComma s).length := by
  unfold pySplitComma
  rw [List.length_map]
  exact splitCommaChars_two_pieces s.data h

/-- Helper for C4: a shape-A row with no comma in its options cell is
rejected with the comma-separated-string message. -/
theorem processRowA_no_comma (i : Nat) (row : RowA)
    (h : pyContainsComma row.options = false) :
    processRowA i row =
      .error s!"Row {i+1}: \x27options\x27 must be a comma-separated string of choices" := by
  unfold processRowA
  rw [h]
  simp
/-- C4 counterexample: the shape-A row `Q1,A,A` has a single option and no
comma; `validate_csv` rejects it with the comma-separated-string message,
not with the "At least 2 options are required" message the claim states. -/
theorem shapeA_single_option_message :
    validateShapeA [⟨"Q1", "A", "A"⟩] =
      .error "Row 1: \x27options\x27 must be a comma-separated string of choices" ∧
    ("Row 1: \x27options\x27 must be a comma-separated string of choices" ≠
      "Row 1: At least 2 options are required") :=
  ⟨rfl, by decide⟩

/-- C4 amended: a shape-A row whose options cell contains no comma (a single
option) makes validation fail with the row-indexed message saying the options
cell must be a comma-separated string of choices, provided the rows before it
are accepted. (The "At least 2 options are required" branch is unreachable in
shape A: splitting a comma-containing string yields at least two pieces.) -/
theorem shapeA_no_comma_fails (pre : List RowA) (row : RowA) (post : List RowA)
    (qs : List Question) (hpre : processRowsA 0 pre = .ok qs)
    (hrow : pyContainsComma row.options = false) :
    validateShapeA (pre ++ row :: post) =
      .error s!"Row {pre.length + 1}: \x27options\x27 must be a comma-separated string of choices" := by
  unfold validateShapeA
  rw [processRowsA_append pre 0 (row :: post) qs hpre]
  have hfirst : processRowsA (0 + pre.length) (row :: post) =
      .error s!"Row {pre.length + 1}: \x27options\x27 must be a comma-separated string of choices" := by
    unfold processRowsA
    rw [processRowA_no_comma _ _ hrow]
    simp
  rw [hfirst]
/-- C4 witness: the amended statement at the one-row list `Q1,A,A`. -/
theorem shapeA_no_comma_fails_witness :
    validateShapeA [⟨"Q1", "A", "A"⟩] =
      .error "Row 1: \x27options\x27 must be a comma-separated string of choices" :=
  shapeA_no_comma_fails [] ⟨"Q1", "A", "A"⟩ [] [] rfl rfl

/-- C2 counterexample: in the shape-B row with options `["0", "1"]` and
answer `"0"`, the answer is not a positive integer string (its value is 0)
and is an exact member of the options, so the claim says it resolves by
exact match; the code instead takes the digit branch (`"0".isdigit()` is
true), computes index `-1`, and rejects the row as out of range. -/
theorem shapeB_zero_answer_rejected :
    processRowB 0 ⟨"Q1", [some "0", some "1"], "0"⟩ =
      .error "Row 1: Answer index 0 is out of range" ∧
    "0" ∈ ["0", "1"] ∧
    pyInt "0" = 0 :=
  ⟨rfl, by decide, by decide⟩

/-- C2 amended: for every shape-B row with at least two collected options, a
digit-string answer (including `"0"`) is resolved as a 1-based index into
the collected options — yielding the indexed option's text when the value is
between 1 and the option count, and the row-indexed out-of-range message
when the value is 0 or exceeds the option count; a non-digit answer is
matched exactly, then case-insensitively adopting the first matching
option's original casing, and the row fails with a row-indexed message when
neither match succeeds. -/
theorem processRowB_answer_resolution (i : Nat) (row : RowB)
    (h2 : ¬ (row.optionCells.filterMap id).length < 2) :
    (pyIsDigit row.answer = true →
      (∀ opt, (row.optionCells.filterMap id).get? (pyInt row.answer - 1) = some opt →
        1 ≤ pyInt row.answer →
        processRowB i row = .ok ⟨row.question, row.optionCells.filterMap id, opt⟩) ∧
      (pyInt row.answer = 0 ∨ (row.optionCells.filterMap id).length < pyInt row.answer →
        processRowB i row = .error s!"Row {i+1}: Answer index {row.answer} is out of range")) ∧
    (pyIsDigit row.answer = false →
      (row.answer ∈ row.optionCells.filterMap id →
        processRowB i row = .ok ⟨row.question, row.optionCells.filterMap id, row.answer⟩) ∧
      (row.answer ∉ row.optionCells.filterMap id →
        (∀ opt,
          (row.optionCells.filterMap id).find? (fun o => pyLower o == pyLower row.answer) =
            some opt →
          opt ∈ row.optionCells.filterMap id ∧ pyLower opt = pyLower row.answer ∧
          processRowB i row = .ok ⟨row.question, row.optionCells.filterMap id, opt⟩) ∧
        ((row.optionCells.filterMap id).find? (fun o => pyLower o == pyLower row.answer) =
            none →
          processRowB i row =
            .error s!"Row {i+1}: Answer \x27{row.answer}\x27 is not in the options list"))) := by
  constructor
  · intro hd
    constructor
    · intro opt hopt h1
      have hlt : pyInt row.answer - 1 < (row.optionCells.filterMap id).length := by
        rw [List.get?_eq_getElem?] at hopt
        rcases List.getElem?_eq_some.1 hopt with ⟨hl, _⟩
        exact hl
      have hres : resolveAnswerIndex i row.answer (row.optionCells.filterMap id) = .ok opt := by
        unfold resolveAnswerIndex
        rw [if_pos hd]
        have hcond : (0 : Int) ≤ (pyInt row.answer : Int) - 1 ∧
            (pyInt row.answer : Int) - 1 < (row.optionCells.filterMap id).length := by
          constructor <;> [omega; (push_cast; omega)]
        rw [if_pos hcond]
        have htn : ((pyInt row.answer : Int) - 1).toNat = pyInt row.answer - 1 := by omega
        rw [htn]
        rw [List.get?_eq_getElem?] at hopt
        simp [List.getD, hopt]
      have hmem : opt ∈ row.optionCells.filterMap id := List.get?_mem hopt
      unfold processRowB
      rw [if_neg h2]
      simp only [hres]
      rw [if_pos (by simpa using hmem)]
    · intro hor
      have hres : resolveAnswerIndex i row.answer (row.optionCells.filterMap id) =
          .error s!"Row {i+1}: Answer index {row.answer} is out of range" := by
        unfold resolveAnswerIndex
        rw [if_pos hd]
        have hcond : ¬ ((0 : Int) ≤ (pyInt row.answer : Int) - 1 ∧
            (pyInt row.answer : Int) - 1 < (row.optionCells.filterMap id).length) := by
          rcases hor with h0 | hgt
          · omega
          · intro ⟨_, hb⟩
            omega
        rw [if_neg hcond]
      unfold processRowB
      rw [if_neg h2]
      simp only [hres]
  · intro hd
    have hres : resolveAnswerIndex i row.answer (row.optionCells.filterMap id) =
        .ok row.answer := by
      unfold resolveAnswerIndex
      rw [if_neg (by simp [hd])]
    constructor
    · intro hmem
      unfold processRowB
      rw [if_neg h2]
      simp only [hres]
      rw [if_pos (by simpa using hmem)]
    · intro hnmem
      constructor
      · intro opt hf
        refine ⟨List.mem_of_find?_eq_some hf, by simpa using List.find?_some hf, ?_⟩
        unfold processRowB
        rw [if_neg h2]
        simp only [hres]
        rw [if_neg (by simpa using hnmem)]
        simp only [hf]
      · intro hf
        unfold processRowB
        rw [if_neg h2]
        simp only [hres]
        rw [if_neg (by simpa using hnmem)]
        simp only [hf]

/-- C2 witness: the sample shape-B row with options `["X", "Y"]` and numeric
answer `"2"` resolves to the option at 1-based index 2, namely `"Y"`. -/
theorem processRowB_answer_resolution_witness :
    processRowB 0 ⟨"Q1", [some "X", some "Y"], "2"⟩ =
      .ok ⟨"Q1", ["X", "Y"], "Y"⟩ :=
  ((processRowB_answer_resolution 0 ⟨"Q1", [some "X", some "Y"], "2"⟩ (by decide)).1
    (by decide)).1 "Y" (by decide) (by decide)

/-- C7: `get_quiz_leaderboard` returns at most `limit` attempts, ordered by
raw score in non-increasing order. -/
theorem get_quiz_leaderboard_bounded_sorted (db : DB) (qid limit : Nat) :
    (get_quiz_leaderboard db qid limit).length ≤ limit ∧
    List.Sorted (fun a b : LeaderboardEntry => b.score ≤ a.score)
      (get_quiz_leaderboard db qid limit) := by
  constructor
  · unfold get_quiz_leaderboard
    rw [List.length_map]
    exact List.length_take_le limit _
  · unfold get_quiz_leaderboard
    have hs : List.Sorted byScoreDesc
        ((db.attempts.filter (fun a => a.quiz_id == qid)).insertionSort byScoreDesc) :=
      List.sorted_insertionSort byScoreDesc _
    have ht : List.Sorted byScoreDesc
        (((db.attempts.filter (fun a => a.quiz_id == qid)).insertionSort byScoreDesc).take
          limit) :=
      List.Pairwise.sublist (List.take_sublist _ _) hs
    exact List.Pairwise.map _ (fun a b h => h) ht

/-- Helper for C8: when the environment makes insert number `k` raise, with
`k` inside the range of inserts this loop performs, the loop raises. -/
theorem insertQuestionRows_fail (qs : List Question) :
    ∀ (pending : DB) (qid pos idx k : Nat), idx ≤ k → k < idx + qs.length →
      insertQuestionRows pending qid qs pos (some k) idx = none := by
  induction qs with
  | nil =>
    intro pending qid pos idx k h1 h2
    simp only [List.length_nil, Nat.add_zero] at h2
    omega
  | cons q rest ih =>
    intro pending qid pos idx k h1 h2
    unfold insertQuestionRows
    by_cases hk : k = idx
    · rw [if_pos (by rw [hk])]
    · rw [if_neg (by simpa using hk)]
      refine ih _ qid (pos + 1) (idx + 1) k (by omega) ?_
      simp only [List.length_cons] at h2
      omega

/-- C8: `create_quiz_from_csv` is atomic — if the quiz-row insert or any of
the question-row inserts fails, the commit is never reached, the connection
is rolled back, and the stored state is returned unchanged with no quiz id. -/
theorem create_quiz_atomic (db : DB) (title description : String)
    (quiz_data : List Question) (k : Nat) (hk : k ≤ quiz_data.length) :
    create_quiz_from_csv db title description quiz_data (some k) = (db, none) := by
  unfold create_quiz_from_csv
  by_cases h0 : k = 0
  · rw [if_pos (by rw [h0])]
  · rw [if_neg (by simpa using h0)]
    simp only [insertQuestionRows_fail quiz_data _ _ 1 1 k (by omega) (by omega)]

/-- C8 witness: failing the single question-row insert of a one-question
quiz leaves the empty database unchanged. -/
theorem create_quiz_atomic_witness :
    create_quiz_from_csv ⟨[], [], [], 1⟩ "T" "D" [⟨"Q1", ["A", "B"], "A"⟩] (some 1) =
      (⟨[], [], [], 1⟩, none) :=
  create_quiz_atomic ⟨[], [], [], 1⟩ "T" "D" [⟨"Q1", ["A", "B"], "A"⟩] 1 (by decide)

/-- Helper for C5: with no failing insert, the insert loop appends exactly
the question rows of `quiz_data`, in order, with consecutive positions. -/
theorem insertQuestionRows_none (qs : List Question) :
    ∀ (pending : DB) (qid pos idx : Nat),
      insertQuestionRows pending qid qs pos none idx =
        some { pending with questions := pending.questions ++ questionRowsFrom qid qs pos } := by
  induction qs with
  | nil =>
    intro pending qid pos idx
    unfold insertQuestionRows questionRowsFrom
    simp
  | cons q rest ih =>
    intro pending qid pos idx
    unfold insertQuestionRows
    rw [if_neg (by simp)]
    rw [ih]
    have hqrf : questionRowsFrom qid (q :: rest) pos =
        ⟨qid, q.question, jsonDumps q.options, q.answer, pos⟩ ::
          questionRowsFrom qid rest (pos + 1) := rfl
    rw [hqrf]
    simp

/-- Helper for C5: every row built by `questionRowsFrom` carries the new
quiz id. -/
theorem questionRowsFrom_quiz_id (qid : Nat) (qs : List Question) :
    ∀ (pos : Nat), ∀ r ∈ questionRowsFrom qid qs pos, r.quiz_id = qid := by
  induction qs with
  | nil =>
    intro pos r hr
    simp [questionRowsFrom] at hr
  | cons q rest ih =>
    intro pos r hr
    unfold questionRowsFrom at hr
    rcases List.mem_cons.1 hr with rfl | hr1
    · rfl
    · exact ih (pos + 1) r hr1

/-- Helper for C5: positions in `questionRowsFrom` start at `pos`. -/
theorem questionRowsFrom_pos_le (qid : Nat) (qs : List Question) :
    ∀ (pos : Nat), ∀ r ∈ questionRowsFrom qid qs pos, pos ≤ r.position := by
  induction qs with
  | nil =>
    intro pos r hr
    simp [questionRowsFrom] at hr
  | cons q rest ih =>
    intro pos r hr
    unfold questionRowsFrom at hr
    rcases List.mem_cons.1 hr with rfl | hr1
    · exact Nat.le_refl pos
    · exact Nat.le_trans (Nat.le_succ pos) (ih (pos + 1) r hr1)

/-- Helper for C5: the rows built by `questionRowsFrom` are already sorted
by position, so the `ORDER BY position` read returns them unchanged. -/
theorem questionRowsFrom_sorted (qid : Nat) (qs : List Question) :
    ∀ (pos : Nat), List.Sorted byPosition (questionRowsFrom qid qs pos) := by
  induction qs with
  | nil =>
    intro pos
    simp [questionRowsFrom]
  | cons q rest ih =>
    intro pos
    unfold questionRowsFrom
    refine List.sorted_cons.2 ⟨?_, ih (pos + 1)⟩
    intro r hr
    exact Nat.le_trans (Nat.le_succ pos) (questionRowsFrom_pos_le qid rest (pos + 1) r hr)

/-- Helper for C5: decoding the rows built from `quiz_data` recovers
`quiz_data` itself. -/
theorem questionRowsFrom_decode (qid : Nat) (qs : List Question) :
    ∀ (pos : Nat),
      (questionRowsFrom qid qs pos).map
        (fun r => Question.mk r.question_text (loadOptionsOrEmpty r.options) r.correct_answer) =
        qs := by
  induction qs with
  | nil =>
    intro pos
    simp [questionRowsFrom]
  | cons q rest ih =>
    intro pos
    unfold questionRowsFrom
    simp only [List.map_cons, ih (pos + 1)]
    rfl

/-- C5: creating a quiz and reading it back returns the same questions in
the same order, with identical option lists and answer strings (for a
database whose existing rows do not already use the fresh quiz id, as
SQLite AUTOINCREMENT guarantees). -/
theorem create_then_get_roundtrip (db : DB) (title description : String)
    (quiz_data : List Question) (db' : DB) (qid : Nat)
    (hqz : ∀ qz ∈ db.quizzes, qz.id ≠ db.nextQuizId)
    (hqr : ∀ r ∈ db.questions, r.quiz_id ≠ db.nextQuizId)
    (h : create_quiz_from_csv db title description quiz_data none = (db', some qid)) :
    get_quiz_by_id db' qid = (some ⟨qid, title, description⟩, quiz_data) := by
  unfold create_quiz_from_csv at h
  rw [if_neg (by simp)] at h
  simp only [insertQuestionRows_none] at h
  injection h with h1 h2
  injection h2 with h2
  subst h1
  subst h2
  have hfind : ((db.quizzes ++ [(⟨db.nextQuizId, title, description⟩ : QuizRow)]).find?
      (fun qz => qz.id == db.nextQuizId)) =
        some (⟨db.nextQuizId, title, description⟩ : QuizRow) := by
    rw [List.find?_append]
    rw [List.find?_eq_none.2 (fun qz hmem => by simpa using hqz qz hmem)]
    simp
  have hfilter : ((db.questions ++ questionRowsFrom db.nextQuizId quiz_data 1).filter
      (fun r => r.quiz_id == db.nextQuizId)) = questionRowsFrom db.nextQuizId quiz_data 1 := by
    rw [List.filter_append]
    rw [List.filter_eq_nil_iff.2 (fun r hmem => by simpa using hqr r hmem)]
    rw [List.filter_eq_self.2
      (fun r hmem => by simp [questionRowsFrom_quiz_id db.nextQuizId quiz_data 1 r hmem])]
    simp
  unfold get_quiz_by_id
  simp only [hfind, hfilter]
  rw [(questionRowsFrom_sorted db.nextQuizId quiz_data 1).insertionSort_eq]
  rw [questionRowsFrom_decode db.nextQuizId quiz_data 1]

/-- C5 witness: a one-question quiz created in the empty database reads back
with the same question, option list and answer. -/
theorem create_then_get_roundtrip_witness :
    get_quiz_by_id ⟨[⟨1, "T", "D"⟩], [⟨1, "Q1", jsonDumps ["A", "B"], "A", 1⟩], [], 2⟩ 1 =
      (some ⟨1, "T", "D"⟩, [⟨"Q1", ["A", "B"], "A"⟩]) :=
  create_then_get_roundtrip ⟨[], [], [], 1⟩ "T" "D" [⟨"Q1", ["A", "B"], "A"⟩]
    ⟨[⟨1, "T", "D"⟩], [⟨1, "Q1", jsonDumps ["A", "B"], "A", 1⟩], [], 2⟩ 1
    (by simp) (by simp) rfl

/-- C9: when the quiz exists, `get_quiz_by_id` succeeds even if stored
options data is malformed — it returns the quiz metadata, one output
question per stored row, and every question whose stored options cell is
malformed comes back with an empty options list instead of failing the
read. -/
theorem get_quiz_malformed_degrades (db : DB) (qid : Nat) (qz : QuizRow)
    (hfind : db.quizzes.find? (fun z => z.id == qid) = some qz) :
    (get_quiz_by_id db qid).1 = some ⟨qz.id, qz.title, qz.description⟩ ∧
    (get_quiz_by_id db qid).2.length =
      (db.questions.filter (fun r => r.quiz_id == qid)).length ∧
    (∀ r ∈ db.questions, r.quiz_id = qid → ∀ blob, r.options = .malformed blob →
      Question.mk r.question_text [] r.correct_answer ∈ (get_quiz_by_id db qid).2) := by
  unfold get_quiz_by_id
  simp only [hfind]
  refine ⟨by simp, ?_, ?_⟩
  · rw [List.length_map]
    exact (List.perm_insertionSort byPosition _).length_eq
  · intro r hr hq blob hopt
    have hmem : r ∈ db.questions.filter (fun row => row.quiz_id == qid) :=
      List.mem_filter.2 ⟨hr, by simp [hq]⟩
    have hmem2 : r ∈ (db.questions.filter (fun row => row.quiz_id == qid)).insertionSort
        byPosition :=
      (List.perm_insertionSort byPosition _).mem_iff.2 hmem
    refine List.mem_map.2 ⟨r, hmem2, ?_⟩
    simp [loadOptionsOrEmpty, jsonLoads, hopt]

/-- C9 witness: a stored question with an unparseable options cell comes
back from `get_quiz_by_id` with an empty options list. -/
theorem get_quiz_malformed_degrades_witness :
    Question.mk "Q1" [] "A" ∈
      (get_quiz_by_id ⟨[⟨7, "T", "D"⟩], [⟨7, "Q1", .malformed "not json", "A", 1⟩], [], 8⟩ 7).2 :=
  (get_quiz_malformed_degrades
      ⟨[⟨7, "T", "D"⟩], [⟨7, "Q1", .malformed "not json", "A", 1⟩], [], 8⟩ 7 ⟨7, "T", "D"⟩
      rfl).2.2
    ⟨7, "Q1", .malformed "not json", "A", 1⟩ (by decide) rfl "not json" rfl

end QuizApp
